import Mathlib

/-!
Verification of the synthesis comparison utility (src/synthesis/synth-util.py).

The Python source is shallowly embedded: its pure logic (extractors, the
comparator, the batch tallies) becomes executable Lean functions; each flow
runner becomes a function of an explicit environment record that carries the
outcomes of the external operations the runner performs (process exit codes
and captured streams, artifact presence and contents, elapsed wall-clock
readings, and whether a fallible OS call raised).  Python `None` becomes
`Option`, Python floats become `ℚ` (the comparator only sorts, subtracts and
divides them), and Python's stable `list.sort(key=...)` becomes the stable
insertion sort `sortByKey` below.
-/

namespace SynthUtil

/-! ## Stable sort by key

Python's `list.sort(key=...)` is stable: elements with equal keys keep their
original relative order.  `sortByKey` is the standard stable insertion sort:
an element is inserted before the first element whose key it is `≤`, so an
earlier element always stays before a later element with an equal key. -/

/-- Insert `x` into `l`, before the first element whose key is `≥ key x`. -/
def insertByKey {α β : Type} [LinearOrder β] (key : α → β) (x : α) : List α → List α
  | [] => [x]
  | y :: ys => if key x ≤ key y then x :: y :: ys else y :: insertByKey key x ys

/-- Stable sort of `l` ascending by `key`, modelling Python `l.sort(key=...)`. -/
def sortByKey {α β : Type} [LinearOrder β] (key : α → β) : List α → List α
  | [] => []
  | x :: xs => insertByKey key x (sortByKey key xs)

theorem length_insertByKey {α β : Type} [LinearOrder β] (key : α → β) (x : α) (l : List α) :
    (insertByKey key x l).length = l.length + 1 := by
  induction l with
  | nil => rfl
  | cons y ys ih =>
    by_cases h : key x ≤ key y <;> simp [insertByKey, h, ih]

theorem length_sortByKey {α β : Type} [LinearOrder β] (key : α → β) (l : List α) :
    (sortByKey key l).length = l.length := by
  induction l with
  | nil => rfl
  | cons x xs ih => simp [sortByKey, length_insertByKey, ih]

theorem mem_insertByKey {α β : Type} [LinearOrder β] (key : α → β) (x a : α) (l : List α) :
    a ∈ insertByKey key x l ↔ a = x ∨ a ∈ l := by
  induction l with
  | nil => simp [insertByKey]
  | cons y ys ih =>
    by_cases h : key x ≤ key y
    · simp [insertByKey, if_pos h]
    · simp only [insertByKey, if_neg h, List.mem_cons, ih]
      tauto

theorem mem_sortByKey {α β : Type} [LinearOrder β] (key : α → β) (a : α) (l : List α) :
    a ∈ sortByKey key l ↔ a ∈ l := by
  induction l with
  | nil => simp [sortByKey]
  | cons x xs ih => simp [sortByKey, mem_insertByKey, ih]

/-- The head of the stable sort is the *first* element of the input attaining
the minimal key: the input splits as `l₁ ++ a :: l₂` where every element of
the prefix `l₁` has a strictly larger key.  This is the fact behind the
deterministic tie-break of the comparator. -/
theorem sortByKey_firstMin {α β : Type} [LinearOrder β] (key : α → β) (l : List α)
    (a : α) (rest : List α) (h : sortByKey key l = a :: rest) :
    ∃ l₁ l₂, l = l₁ ++ a :: l₂ ∧ (∀ b ∈ l, key a ≤ key b) ∧ (∀ b ∈ l₁, key a < key b) := by
  induction l generalizing a rest with
  | nil => simp [sortByKey] at h
  | cons x xs ih =>
    rw [sortByKey] at h
    cases hs : sortByKey key xs with
    | nil =>
      have hxs : xs = [] := by
        have := length_sortByKey key xs
        rw [hs] at this
        exact List.length_eq_zero.mp this.symm
      subst hxs
      rw [hs] at h
      simp only [insertByKey] at h
      injection h with h1 h2
      subst h1
      exact ⟨[], [], by simp, by simp, by simp⟩
    | cons b bs =>
      rw [hs] at h
      by_cases hx : key x ≤ key b
      · simp only [insertByKey, if_pos hx] at h
        injection h with h1 h2
        subst h1
        refine ⟨[], xs, by simp, ?_, by simp⟩
        intro c hc
        rcases List.mem_cons.mp hc with rfl | hc
        · exact le_refl _
        · obtain ⟨l₁, l₂, _, hmin, _⟩ := ih b bs hs
          exact le_trans hx (hmin c hc)
      · simp only [insertByKey, if_neg hx] at h
        injection h with h1 h2
        subst h1
        obtain ⟨l₁, l₂, hsplit, hmin, hpre⟩ := ih b bs hs
        have hlt : key b < key x := lt_of_not_le hx
        refine ⟨x :: l₁, l₂, by simp [hsplit], ?_, ?_⟩
        · intro c hc
          rcases List.mem_cons.mp hc with rfl | hc
          · exact le_of_lt hlt
          · exact hmin c hc
        · intro c hc
          rcases List.mem_cons.mp hc with rfl | hc
          · exact hlt
          · exact hpre c hc

/-! ## Data model -/

/-- Models class `SynthesisResults` (synth-util.py lines 29-40).  The field
defaults mirror `__init__`: a freshly constructed record is `{}`. -/
structure SynthesisResults where
  timing_levels : Option Int := none
  lut_count : Option Int := none
  runtime : Option ℚ := none
  success : Bool := false
  error_message : Option String := none
deriving DecidableEq

/-! ## Metric extractors -/

/-- Models `_parse_yosys_abc_levels` (lines 374-392).  The input abstracts the
log file: `none` when opening/reading the file raises (the `except` branch
returns `None`), otherwise the ordered list of integers captured, one per
occurrence of the `ABC: netlist : ... lev = <n>` statistics pattern in the
log text (`re.findall` returns them in order of appearance).  The code
returns `int(matches[-1])` when the list is non-empty and `None` otherwise,
i.e. the last match. -/
def parseYosysAbcLevels : Option (List Nat) → Option Nat
  | none => none
  | some ms => ms.getLast?

/-- Models `_count_luts_in_blif` (lines 394-406).  The input abstracts the
BLIF file: `none` when reading raises (the `except` branch returns `None`),
otherwise the file's lines.  The code counts the lines matched by the
multiline pattern for a line starting with `.names` (the line's character
sequence begins with the characters of `.names`) and returns the count
only when it is positive, else `None`. -/
def countLutsInBlif : Option (List String) → Option Nat
  | none => none
  | some lines =>
    let n := (lines.filter fun l => List.isPrefixOf ".names".toList l.toList).length
    if 0 < n then some n else none

/-! ## Flow runners

`run_command` (lines 62-84) never raises: launch faults are converted to a
synthetic return code `-1` with the fault text in stderr.  So each stage is
modelled as a `StageOut` the environment supplies.  The remaining fallible
operations inside each runner's `try` block are the OS calls it performs
directly: creating the temporary Yosys script, opening/writing the log file,
and `os.unlink` of the script; each is modelled as `Option String`, `some
msg` meaning the call raised with message `msg` and control jumped to the
`except` handler. -/

/-- Exit status and captured streams of one external process invocation. -/
structure StageOut where
  returncode : Int
  stdout : String
  stderr : String
deriving DecidableEq

/-- Environment read by `run_circt_synthesis`: the two stage outcomes, the
presence of the longest-path JSON file, the pair `_parse_circt_json` would
produce from it (that parser catches its own exceptions and returns
`(None, None)`), and the elapsed wall-clock time at the point
`time.time() - start_time` is evaluated on the success path. -/
structure CirctEnv where
  verilogStage : StageOut
  synthStage : StageOut
  jsonExists : Bool
  jsonLevels : Option Int
  jsonLuts : Option Int
  elapsed : ℚ
deriving DecidableEq

/-- Models `run_circt_synthesis` (lines 86-151).  Non-zero exit of either
stage returns the fresh results record immediately with only
`error_message` set; `runtime` and `success` are only assigned afterwards
on the success path.  No other operation inside the `try` block can raise
(`run_command` converts launch faults, `_parse_circt_json` catches its
own), so the `except` branch is unreachable and not modelled. -/
def run_circt_synthesis (e : CirctEnv) : SynthesisResults :=
  if e.verilogStage.returncode ≠ 0 then
    { error_message := some ("circt-verilog failed: " ++ e.verilogStage.stderr) }
  else if e.synthStage.returncode ≠ 0 then
    { error_message := some ("circt-synth failed: " ++ e.synthStage.stderr) }
  else
    { timing_levels := if e.jsonExists then e.jsonLevels else none
      lut_count := if e.jsonExists then e.jsonLuts else none
      runtime := some e.elapsed
      success := true }

/-- Environment read by `run_yosys_synthesis`: whether creating the
temporary Yosys script raised, the Yosys stage outcome, whether writing the
log file raised, the statistics matches readable back from the written log
(`none` if reading it raises), BLIF presence and contents, whether
`os.unlink` of the script raised, and the elapsed wall-clock readings taken
on the success path and inside the `except` handler. -/
structure YosysEnv where
  scriptExc : Option String
  yosysStage : StageOut
  logWriteExc : Option String
  logMatches : Option (List Nat)
  blifExists : Bool
  blifLines : Option (List String)
  unlinkExc : Option String
  elapsed : ℚ
  elapsedExc : ℚ
deriving DecidableEq

/-- Models `run_yosys_synthesis` (lines 153-208).  Order of operations inside
the `try`: create script (fallible), run Yosys, write log (fallible), check
the return code (early return, before `runtime` is assigned), parse the log
and the BLIF, assign `runtime` and `success := true`, then `os.unlink` the
script (fallible).  The `except` handler sets `error_message` and
reassigns `runtime`; it does not reset `success`, so a raise in `unlink`
yields a record with `success = true` and `error_message` populated.  The
log file always exists right after being written, so the `log_file.exists()`
guard is taken. -/
def run_yosys_synthesis (e : YosysEnv) : SynthesisResults :=
  match e.scriptExc with
  | some msg =>
    { error_message := some ("Yosys synthesis error: " ++ msg), runtime := some e.elapsedExc }
  | none =>
    match e.logWriteExc with
    | some msg =>
      { error_message := some ("Yosys synthesis error: " ++ msg), runtime := some e.elapsedExc }
    | none =>
      if e.yosysStage.returncode ≠ 0 then
        { error_message := some ("Yosys failed: " ++ e.yosysStage.stderr) }
      else
        let tl := (parseYosysAbcLevels e.logMatches).map fun n => (n : Int)
        let lc := if e.blifExists then (countLutsInBlif e.blifLines).map fun n => (n : Int)
                  else none
        match e.unlinkExc with
        | some msg =>
          { timing_levels := tl, lut_count := lc, runtime := some e.elapsedExc,
            success := true, error_message := some ("Yosys synthesis error: " ++ msg) }
        | none =>
          { timing_levels := tl, lut_count := lc, runtime := some e.elapsed, success := true }

/-- Environment read by `run_hybrid_synthesis`: the four stage outcomes
(circt-verilog, circt-synth, circt-translate, Yosys), the fallible OS calls
of step 4 (script creation, log write, script unlink), the log matches and
BLIF contents, and the two elapsed readings. -/
structure HybridEnv where
  verilogStage : StageOut
  synthStage : StageOut
  translateStage : StageOut
  scriptExc : Option String
  yosysStage : StageOut
  logWriteExc : Option String
  logMatches : Option (List Nat)
  blifExists : Bool
  blifLines : Option (List String)
  unlinkExc : Option String
  elapsed : ℚ
  elapsedExc : ℚ
deriving DecidableEq

/-- Models `run_hybrid_synthesis` (lines 210-318): three CIRCT stages with
fail-fast early returns, then the Yosys back-end step with the same
script/log/unlink structure as `run_yosys_synthesis`.  As there, the early
returns on a non-zero stage exit happen before `runtime` is assigned, and a
raise in the final `os.unlink` leaves `success = true` while the handler
sets `error_message`. -/
def run_hybrid_synthesis (e : HybridEnv) : SynthesisResults :=
  if e.verilogStage.returncode ≠ 0 then
    { error_message := some ("circt-verilog failed: " ++ e.verilogStage.stderr) }
  else if e.synthStage.returncode ≠ 0 then
    { error_message := some ("circt-synth failed: " ++ e.synthStage.stderr) }
  else if e.translateStage.returncode ≠ 0 then
    { error_message := some ("circt-translate AIGER export failed: " ++ e.translateStage.stderr) }
  else
    match e.scriptExc with
    | some msg =>
      { error_message := some ("Hybrid synthesis error: " ++ msg), runtime := some e.elapsedExc }
    | none =>
      match e.logWriteExc with
      | some msg =>
        { error_message := some ("Hybrid synthesis error: " ++ msg), runtime := some e.elapsedExc }
      | none =>
        if e.yosysStage.returncode ≠ 0 then
          { error_message := some ("Yosys LUT mapping failed: " ++ e.yosysStage.stderr) }
        else
          let tl := (parseYosysAbcLevels e.logMatches).map fun n => (n : Int)
          let lc := if e.blifExists then (countLutsInBlif e.blifLines).map fun n => (n : Int)
                    else none
          match e.unlinkExc with
          | some msg =>
            { timing_levels := tl, lut_count := lc, runtime := some e.elapsedExc,
              success := true, error_message := some ("Hybrid synthesis error: " ++ msg) }
          | none =>
            { timing_levels := tl, lut_count := lc, runtime := some e.elapsed, success := true }

/-! ## Comparator -/

/-- Models the collection of successful flows in `compare_results`
(lines 420-426): the list is built in the fixed order CIRCT, Yosys+ABC,
CIRCT+Yosys, keeping only flows with `success` true. -/
def flowsOf (c y : SynthesisResults) (h : Option SynthesisResults) :
    List (String × SynthesisResults) :=
  (if c.success then [("CIRCT", c)] else []) ++
  (if y.success then [("Yosys+ABC", y)] else []) ++
  (match h with
   | some hr => if hr.success then [("CIRCT+Yosys", hr)] else []
   | none => [])

/-- The list comprehension of line 434: successful flows whose
`timing_levels` is present, paired with the value, in flow order. -/
def timingPairs (c y : SynthesisResults) (h : Option SynthesisResults) :
    List (String × Int) :=
  (flowsOf c y h).filterMap fun p => p.2.timing_levels.map fun v => (p.1, v)

/-- The list comprehension of line 450: successful flows whose `lut_count`
is present, paired with the value, in flow order. -/
def lutPairs (c y : SynthesisResults) (h : Option SynthesisResults) :
    List (String × Int) :=
  (flowsOf c y h).filterMap fun p => p.2.lut_count.map fun v => (p.1, v)

/-- The list comprehension of line 466: successful flows whose `runtime`
is present, paired with the value, in flow order. -/
def runtimePairs (c y : SynthesisResults) (h : Option SynthesisResults) :
    List (String × ℚ) :=
  (flowsOf c y h).filterMap fun p => p.2.runtime.map fun v => (p.1, v)

/-- The three analysis entries one metric contributes: winner, the full
mapping as emitted (a Python dict preserves insertion order, so it is an
ordered association list here), and the margin (improvement or speedup). -/
structure MetricRank (β : Type) where
  winner : Option String
  ranking : Option (List (String × β))
  margin : Option β
deriving DecidableEq

/-- Models one integer-metric block of `compare_results` (timing: lines
434-447, area: lines 450-463).  The source guards with
`len(pairs) >= 2` and then sorts in place; since sorting preserves length,
matching on the shape of the sorted list is the same test.  Inside that
branch the source's `len(pairs) > 1` re-check is always true, so the
improvement is always `second - best`.  The dict comprehension iterates the
sorted list, so the emitted mapping is in sorted order. -/
def rankIntMetric (pairs : List (String × Int)) : MetricRank Int :=
  match sortByKey (fun p : String × Int => p.2) pairs with
  | p0 :: p1 :: rest => ⟨some p0.1, some (p0 :: p1 :: rest), some (p1.2 - p0.2)⟩
  | _ => ⟨some "Unable to compare", none, none⟩

/-- Models the runtime block of `compare_results` (lines 466-477): same
shape as `rankIntMetric` but the margin is the speedup `second / best`,
and there is no `else` branch — with fewer than two qualifying runtimes
no runtime keys are written at all. -/
def rankRuntime (pairs : List (String × ℚ)) : MetricRank ℚ :=
  match sortByKey (fun p : String × ℚ => p.2) pairs with
  | p0 :: p1 :: rest => ⟨some p0.1, some (p0 :: p1 :: rest), some (p1.2 / p0.2)⟩
  | _ => ⟨none, none, none⟩

/-- The `comparison['analysis']` dict: every key the comparator may write,
`none` when the key is absent. -/
structure Analysis where
  timing_winner : Option String := none
  timing_levels_all : Option (List (String × Int)) := none
  timing_improvement : Option Int := none
  area_winner : Option String := none
  lut_counts_all : Option (List (String × Int)) := none
  area_improvement : Option Int := none
  runtime_winner : Option String := none
  runtimes_all : Option (List (String × ℚ)) := none
  speedup : Option ℚ := none
deriving DecidableEq

/-- Models `compare_results` (lines 408-479), restricted to the analysis it
derives (the returned dict also carries the three input records
unchanged).  Fewer than two successful flows: only `timing_winner` and
`area_winner` are written, both `Unable to compare`, and the function
returns early.  Otherwise each metric is ranked independently. -/
def compare_results (c y : SynthesisResults) (h : Option SynthesisResults) : Analysis :=
  if (flowsOf c y h).length < 2 then
    { timing_winner := some "Unable to compare", area_winner := some "Unable to compare" }
  else
    let t := rankIntMetric (timingPairs c y h)
    let a := rankIntMetric (lutPairs c y h)
    let r := rankRuntime (runtimePairs c y h)
    { timing_winner := t.winner, timing_levels_all := t.ranking, timing_improvement := t.margin,
      area_winner := a.winner, lut_counts_all := a.ranking, area_improvement := a.margin,
      runtime_winner := r.winner, runtimes_all := r.ranking, speedup := r.margin }

/-! ## Batch driver

`run_batch_comparison` (lines 664-781) loops over the discovered files.
For each file it runs the three flows and the comparator inside a
`try`; the per-file processing is abstracted as a `FileOutcome`: either the
whole iteration raised (`fault`), or the three flow results were produced
and the comparison computed (`ok`).  `run_comparison` always runs all three
flows and passes the hybrid result to the comparator. -/

/-- Outcome of processing one file inside the batch loop. -/
inductive FileOutcome where
  | fault (msg : String)
  | ok (circt yosys hybrid : SynthesisResults)
deriving DecidableEq

/-- One value of the `batch_results['results']` dict: a per-file failure
entry (lines 766-769) or a stored comparison (lines 714-731, which keep
the circt and yosys records and the analysis). -/
inductive FileEntry where
  | errorEntry (msg : String)
  | resultEntry (circt yosys : SynthesisResults) (analysis : Analysis)
deriving DecidableEq

/-- The entry the loop body stores for one file. -/
def entryOfOutcome : FileOutcome → FileEntry
  | .fault msg => .errorEntry msg
  | .ok c y hb => .resultEntry c y (compare_results c y (some hb))

/-- `batch_results['summary']` (lines 675-686), with its initial values as
field defaults. -/
structure BatchSummary where
  successful_comparisons : Nat := 0
  failed_comparisons : Nat := 0
  circt_wins_timing : Nat := 0
  yosys_wins_timing : Nat := 0
  ties_timing : Nat := 0
  circt_wins_area : Nat := 0
  yosys_wins_area : Nat := 0
  ties_area : Nat := 0
  total_circt_time : ℚ := 0
  total_yosys_time : ℚ := 0
deriving DecidableEq

/-- The timing tally chain (lines 738-744). -/
def tallyTiming (s : BatchSummary) (tw : String) : BatchSummary :=
  if tw = "CIRCT" then { s with circt_wins_timing := s.circt_wins_timing + 1 }
  else if tw = "Yosys+ABC" then { s with yosys_wins_timing := s.yosys_wins_timing + 1 }
  else if tw = "Tie" then { s with ties_timing := s.ties_timing + 1 }
  else s

/-- The area tally chain (lines 747-753). -/
def tallyArea (s : BatchSummary) (aw : String) : BatchSummary :=
  if aw = "CIRCT" then { s with circt_wins_area := s.circt_wins_area + 1 }
  else if aw = "Yosys+ABC" then { s with yosys_wins_area := s.yosys_wins_area + 1 }
  else if aw = "Tie" then { s with ties_area := s.ties_area + 1 }
  else s

/-- Python truthiness of `if comparison['circt'].runtime:` (lines 756-759):
the runtime is added only when present and non-zero; the added amount is
the same as `getD 0`. -/
def truthyRuntime : Option ℚ → ℚ
  | some r => if r = 0 then 0 else r
  | none => 0

/-- The runtime totals update (lines 755-759). -/
def addRuntimes (s : BatchSummary) (c y : SynthesisResults) : BatchSummary :=
  { s with total_circt_time := s.total_circt_time + truthyRuntime c.runtime,
           total_yosys_time := s.total_yosys_time + truthyRuntime y.runtime }

/-- The summary update for one successfully processed file (lines 733-761):
if both the circt and yosys flows succeeded, count a successful comparison
and tally the winners read with `.get(key, 'Unable to compare')`; otherwise
count a failed comparison. -/
def updateSummary (s : BatchSummary) (c y : SynthesisResults) (an : Analysis) : BatchSummary :=
  if c.success && y.success then
    addRuntimes
      (tallyArea
        (tallyTiming
          { s with successful_comparisons := s.successful_comparisons + 1 }
          (an.timing_winner.getD "Unable to compare"))
        (an.area_winner.getD "Unable to compare"))
      c y
  else
    { s with failed_comparisons := s.failed_comparisons + 1 }

/-- One iteration of the batch loop (lines 694-769): a raise is caught,
recorded as an error entry and a failed comparison; otherwise the
comparison entry is stored and the summary statistics updated. -/
def batchStep (acc : List (String × FileEntry) × BatchSummary) (f : String × FileOutcome) :
    List (String × FileEntry) × BatchSummary :=
  match f.2 with
  | .fault msg =>
    (acc.1 ++ [(f.1, FileEntry.errorEntry msg)],
     { acc.2 with failed_comparisons := acc.2.failed_comparisons + 1 })
  | .ok c y hb =>
    (acc.1 ++ [(f.1, entryOfOutcome (FileOutcome.ok c y hb))],
     updateSummary acc.2 c y (compare_results c y (some hb)))

/-- The finalized batch report: file count, per-file entries keyed by file
name, and the summary.  (The source raises `ValueError` before this dict
is even created when no input files are discovered, so every finalized
report corresponds to a non-empty file list; the model is total in the
list of per-file outcomes.) -/
structure BatchResult where
  total_files : Nat
  results : List (String × FileEntry)
  summary : BatchSummary
deriving DecidableEq

/-- Models `run_batch_comparison` (lines 664-781): fold the loop body over
the files in order, starting from an empty results dict and the zeroed
summary. -/
def run_batch_comparison (files : List (String × FileOutcome)) : BatchResult :=
  let st := files.foldl batchStep ([], {})
  { total_files := files.length, results := st.1, summary := st.2 }

/-- A file outcome the summary counts as a failed comparison: the iteration
raised, or not both of the circt and yosys results succeeded. -/
def isFailedOutcome : FileOutcome → Bool
  | .fault _ => true
  | .ok c y _ => !(c.success && y.success)

/-- Whether a per-file entry is the error (fault) shape. -/
def isErrorEntry : FileEntry → Bool
  | .errorEntry _ => true
  | .resultEntry _ _ _ => false

/-! ## Comparator lemmas -/

theorem rankIntMetric_short (pairs : List (String × Int)) (h : pairs.length < 2) :
    rankIntMetric pairs = ⟨some "Unable to compare", none, none⟩ := by
  unfold rankIntMetric
  split
  · next p0 p1 rest heq =>
    have hl := length_sortByKey (fun p : String × Int => p.2) pairs
    rw [heq] at hl
    simp at hl
    omega
  · rfl

theorem rankRuntime_short (pairs : List (String × ℚ)) (h : pairs.length < 2) :
    rankRuntime pairs = ⟨none, none, none⟩ := by
  unfold rankRuntime
  split
  · next p0 p1 rest heq =>
    have hl := length_sortByKey (fun p : String × ℚ => p.2) pairs
    rw [heq] at hl
    simp at hl
    omega
  · rfl

theorem compare_results_short (c y : SynthesisResults) (h : Option SynthesisResults)
    (hf : (flowsOf c y h).length < 2) :
    compare_results c y h =
      { timing_winner := some "Unable to compare",
        area_winner := some "Unable to compare" } := by
  simp [compare_results, hf]

theorem compare_results_long (c y : SynthesisResults) (h : Option SynthesisResults)
    (hf : ¬ (flowsOf c y h).length < 2) :
    compare_results c y h =
      { timing_winner := (rankIntMetric (timingPairs c y h)).winner,
        timing_levels_all := (rankIntMetric (timingPairs c y h)).ranking,
        timing_improvement := (rankIntMetric (timingPairs c y h)).margin,
        area_winner := (rankIntMetric (lutPairs c y h)).winner,
        lut_counts_all := (rankIntMetric (lutPairs c y h)).ranking,
        area_improvement := (rankIntMetric (lutPairs c y h)).margin,
        runtime_winner := (rankRuntime (runtimePairs c y h)).winner,
        runtimes_all := (rankRuntime (runtimePairs c y h)).ranking,
        speedup := (rankRuntime (runtimePairs c y h)).margin } := by
  simp [compare_results, hf]

theorem mem_if_singleton {α : Type} {b : Prop} [Decidable b] {x a : α}
    (h : a ∈ if b then [x] else []) : a = x := by
  split at h
  · simpa using h
  · simp at h

theorem flowsOf_name (c y : SynthesisResults) (h : Option SynthesisResults) :
    ∀ p ∈ flowsOf c y h, p.1 = "CIRCT" ∨ p.1 = "Yosys+ABC" ∨ p.1 = "CIRCT+Yosys" := by
  intro p hp
  unfold flowsOf at hp
  rcases List.mem_append.mp hp with hp2 | hp2
  · rcases List.mem_append.mp hp2 with hp3 | hp3
    · left
      exact congrArg Prod.fst (mem_if_singleton hp3)
    · right; left
      exact congrArg Prod.fst (mem_if_singleton hp3)
  · right; right
    cases h with
    | none => simp at hp2
    | some hr => exact congrArg Prod.fst (mem_if_singleton hp2)

theorem pairs_name {β : Type} (c y : SynthesisResults) (h : Option SynthesisResults)
    (g : SynthesisResults → Option β) :
    ∀ q ∈ (flowsOf c y h).filterMap fun p => (g p.2).map fun v => (p.1, v),
      q.1 = "CIRCT" ∨ q.1 = "Yosys+ABC" ∨ q.1 = "CIRCT+Yosys" := by
  intro q hq
  rcases List.mem_filterMap.mp hq with ⟨p, hp, hmap⟩
  cases hv : g p.2 with
  | none => rw [hv] at hmap; simp at hmap
  | some v =>
    rw [hv] at hmap
    simp only [Option.map_some', Option.some.injEq] at hmap
    rw [← hmap]
    exact flowsOf_name c y h p hp

theorem rankIntMetric_winner_cases (pairs : List (String × Int)) (w : String)
    (hw : (rankIntMetric pairs).winner = some w) :
    w = "Unable to compare" ∨ ∃ v, (w, v) ∈ pairs := by
  unfold rankIntMetric at hw
  split at hw
  · next p0 p1 rest heq =>
    right
    simp only [Option.some.injEq] at hw
    refine ⟨p0.2, ?_⟩
    rw [← hw]
    have hm : p0 ∈ sortByKey (fun p : String × Int => p.2) pairs := by
      rw [heq]; exact List.mem_cons_self _ _
    simpa [Prod.mk.eta] using (mem_sortByKey (fun p : String × Int => p.2) p0 pairs).mp hm
  · simp only [Option.some.injEq] at hw
    exact Or.inl hw.symm

theorem rankRuntime_winner_mem (pairs : List (String × ℚ)) (w : String)
    (hw : (rankRuntime pairs).winner = some w) : ∃ v, (w, v) ∈ pairs := by
  unfold rankRuntime at hw
  split at hw
  · next p0 p1 rest heq =>
    simp only [Option.some.injEq] at hw
    refine ⟨p0.2, ?_⟩
    rw [← hw]
    have hm : p0 ∈ sortByKey (fun p : String × ℚ => p.2) pairs := by
      rw [heq]; exact List.mem_cons_self _ _
    simpa [Prod.mk.eta] using (mem_sortByKey (fun p : String × ℚ => p.2) p0 pairs).mp hm
  · simp at hw

theorem compare_timing_winner_ne_tie (c y : SynthesisResults) (h : Option SynthesisResults) :
    ¬ (compare_results c y h).timing_winner = some "Tie" := by
  intro hw
  by_cases hf : (flowsOf c y h).length < 2
  · rw [compare_results_short c y h hf] at hw
    simp at hw
  · rw [compare_results_long c y h hf] at hw
    rcases rankIntMetric_winner_cases _ _ hw with he | ⟨v, hv⟩
    · exact absurd he (by decide)
    · have hn := pairs_name c y h (fun r => r.timing_levels) ("Tie", v)
        (by unfold timingPairs at hv; exact hv)
      rcases hn with h1 | h1 | h1 <;> simp at h1

theorem compare_area_winner_ne_tie (c y : SynthesisResults) (h : Option SynthesisResults) :
    ¬ (compare_results c y h).area_winner = some "Tie" := by
  intro hw
  by_cases hf : (flowsOf c y h).length < 2
  · rw [compare_results_short c y h hf] at hw
    simp at hw
  · rw [compare_results_long c y h hf] at hw
    rcases rankIntMetric_winner_cases _ _ hw with he | ⟨v, hv⟩
    · exact absurd he (by decide)
    · have hn := pairs_name c y h (fun r => r.lut_count) ("Tie", v)
        (by unfold lutPairs at hv; exact hv)
      rcases hn with h1 | h1 | h1 <;> simp at h1

/-! ## Batch driver lemmas -/

theorem tallyTiming_ties_timing (s : BatchSummary) (tw : String) (h : ¬ tw = "Tie") :
    (tallyTiming s tw).ties_timing = s.ties_timing := by
  unfold tallyTiming
  split_ifs <;> rfl

theorem tallyTiming_ties_area (s : BatchSummary) (tw : String) :
    (tallyTiming s tw).ties_area = s.ties_area := by
  unfold tallyTiming
  split_ifs <;> rfl

theorem tallyTiming_failed (s : BatchSummary) (tw : String) :
    (tallyTiming s tw).failed_comparisons = s.failed_comparisons := by
  unfold tallyTiming
  split_ifs <;> rfl

theorem tallyArea_ties_area (s : BatchSummary) (aw : String) (h : ¬ aw = "Tie") :
    (tallyArea s aw).ties_area = s.ties_area := by
  unfold tallyArea
  split_ifs <;> rfl

theorem tallyArea_ties_timing (s : BatchSummary) (aw : String) :
    (tallyArea s aw).ties_timing = s.ties_timing := by
  unfold tallyArea
  split_ifs <;> rfl

theorem tallyArea_failed (s : BatchSummary) (aw : String) :
    (tallyArea s aw).failed_comparisons = s.failed_comparisons := by
  unfold tallyArea
  split_ifs <;> rfl

theorem getD_winner_ne_tie (o : Option String) (h : ¬ o = some "Tie") :
    ¬ o.getD "Unable to compare" = "Tie" := by
  cases o with
  | none => simp
  | some w =>
    intro hw
    simp only [Option.getD_some] at hw
    exact h (by rw [hw])

theorem updateSummary_ties_timing (s : BatchSummary) (c y : SynthesisResults) (an : Analysis)
    (h : ¬ an.timing_winner = some "Tie") :
    (updateSummary s c y an).ties_timing = s.ties_timing := by
  unfold updateSummary
  split
  · rw [addRuntimes, tallyArea_ties_timing,
      tallyTiming_ties_timing _ _ (getD_winner_ne_tie _ h)]
  · rfl

theorem updateSummary_ties_area (s : BatchSummary) (c y : SynthesisResults) (an : Analysis)
    (h : ¬ an.area_winner = some "Tie") :
    (updateSummary s c y an).ties_area = s.ties_area := by
  unfold updateSummary
  split
  · rw [addRuntimes, tallyArea_ties_area _ _ (getD_winner_ne_tie _ h),
      tallyTiming_ties_area]
  · rfl

theorem updateSummary_failed (s : BatchSummary) (c y : SynthesisResults) (an : Analysis) :
    (updateSummary s c y an).failed_comparisons
      = s.failed_comparisons + (if c.success && y.success then 0 else 1) := by
  unfold updateSummary
  split
  · next hcy => rw [addRuntimes, tallyArea_failed, tallyTiming_failed]; simp [hcy]
  · next hcy => simp [hcy]

theorem batchStep_ties_timing (acc : List (String × FileEntry) × BatchSummary)
    (f : String × FileOutcome) :
    (batchStep acc f).2.ties_timing = acc.2.ties_timing := by
  unfold batchStep
  cases hf : f.2 with
  | fault msg => rfl
  | ok c y hb => exact updateSummary_ties_timing _ _ _ _ (compare_timing_winner_ne_tie c y (some hb))

theorem batchStep_ties_area (acc : List (String × FileEntry) × BatchSummary)
    (f : String × FileOutcome) :
    (batchStep acc f).2.ties_area = acc.2.ties_area := by
  unfold batchStep
  cases hf : f.2 with
  | fault msg => rfl
  | ok c y hb => exact updateSummary_ties_area _ _ _ _ (compare_area_winner_ne_tie c y (some hb))

theorem foldl_batchStep_ties_timing (files : List (String × FileOutcome))
    (acc : List (String × FileEntry) × BatchSummary) :
    (files.foldl batchStep acc).2.ties_timing = acc.2.ties_timing := by
  induction files generalizing acc with
  | nil => rfl
  | cons f fs ih => rw [List.foldl_cons, ih, batchStep_ties_timing]

theorem foldl_batchStep_ties_area (files : List (String × FileOutcome))
    (acc : List (String × FileEntry) × BatchSummary) :
    (files.foldl batchStep acc).2.ties_area = acc.2.ties_area := by
  induction files generalizing acc with
  | nil => rfl
  | cons f fs ih => rw [List.foldl_cons, ih, batchStep_ties_area]

theorem foldl_batchStep_results (files : List (String × FileOutcome))
    (acc : List (String × FileEntry) × BatchSummary) :
    (files.foldl batchStep acc).1 = acc.1 ++ files.map fun f => (f.1, entryOfOutcome f.2) := by
  induction files generalizing acc with
  | nil => simp
  | cons f fs ih =>
    rw [List.foldl_cons, ih, List.map_cons]
    have hstep : (batchStep acc f).1 = acc.1 ++ [(f.1, entryOfOutcome f.2)] := by
      unfold batchStep
      cases hf : f.2 with
      | fault msg => simp [entryOfOutcome, hf]
      | ok c y hb => simp [entryOfOutcome, hf]
    rw [hstep]
    simp

theorem batchStep_failed (acc : List (String × FileEntry) × BatchSummary)
    (f : String × FileOutcome) :
    (batchStep acc f).2.failed_comparisons
      = acc.2.failed_comparisons + (if isFailedOutcome f.2 then 1 else 0) := by
  unfold batchStep
  cases hf : f.2 with
  | fault msg => simp [isFailedOutcome]
  | ok c y hb =>
    rw [updateSummary_failed]
    simp only [isFailedOutcome]
    by_cases hcy : (c.success && y.success) = true <;> simp [hcy]

theorem foldl_batchStep_failed (files : List (String × FileOutcome))
    (acc : List (String × FileEntry) × BatchSummary) :
    (files.foldl batchStep acc).2.failed_comparisons
      = acc.2.failed_comparisons + (files.countP fun f => isFailedOutcome f.2) := by
  induction files generalizing acc with
  | nil => simp
  | cons f fs ih =>
    rw [List.foldl_cons, ih, batchStep_failed, List.countP_cons]
    by_cases hf : isFailedOutcome f.2
    · simp [hf]
      omega
    · simp [hf]

theorem rankIntMetric_ranking (pairs : List (String × Int)) (s : List (String × Int))
    (hs : (rankIntMetric pairs).ranking = some s) :
    s = sortByKey (fun p : String × Int => p.2) pairs := by
  unfold rankIntMetric at hs
  split at hs
  · next p0 p1 rest heq =>
    simp only [Option.some.injEq] at hs
    rw [← hs, heq]
  · simp at hs

theorem rankRuntime_ranking (pairs : List (String × ℚ)) (s : List (String × ℚ))
    (hs : (rankRuntime pairs).ranking = some s) :
    s = sortByKey (fun p : String × ℚ => p.2) pairs := by
  unfold rankRuntime at hs
  split at hs
  · next p0 p1 rest heq =>
    simp only [Option.some.injEq] at hs
    rw [← hs, heq]
  · simp at hs

/-! ## Claims

Each claim of the specification is settled by one theorem below; concrete
sample inputs used by counterexamples and witnesses are plain definitions. -/

/-- C2 counterexample: a log whose statistics matches are, in order, 12, 9
and 15 does not make the extractor return 9 — `matches[-1]` is 15. -/
theorem c2_counterexample : ¬ parseYosysAbcLevels (some [12, 9, 15]) = some 9 := by
  decide

/-- C2 (amended): for a log whose statistics-line matches carry, in order of
appearance, the level values 12, 9 and 15, the log-pattern extractor
returns 15 — the last match, the final post-optimization depth. -/
theorem c2_last_match : parseYosysAbcLevels (some [12, 9, 15]) = some 15 := by
  decide

/-- C9: the netlist-file extractor returns the count of `.names` lines when
that count is positive, and absent — never zero — when the count is zero
or the file is unreadable. -/
theorem c9_netlist_extractor (lines : List String) :
    (0 < (lines.filter fun l => List.isPrefixOf ".names".toList l.toList).length →
      countLutsInBlif (some lines)
        = some (lines.filter fun l => List.isPrefixOf ".names".toList l.toList).length) ∧
    ((lines.filter fun l => List.isPrefixOf ".names".toList l.toList).length = 0 →
      countLutsInBlif (some lines) = none) ∧
    countLutsInBlif none = none ∧
    (∀ o : Option (List String), ¬ countLutsInBlif o = some 0) := by
  refine ⟨fun hpos => ?_, fun hzero => ?_, rfl, fun o => ?_⟩
  · simp only [countLutsInBlif]
    rw [if_pos hpos]
  · simp only [countLutsInBlif]
    rw [if_neg (by omega)]
  · cases o with
    | none => simp [countLutsInBlif]
    | some ls =>
      simp only [countLutsInBlif]
      split_ifs with hp
      · intro hc
        rw [Option.some.injEq] at hc
        omega
      · simp

/-- A small BLIF netlist with exactly three `.names` primitive lines. -/
def blifSample : List String :=
  [".model top", ".names a b c", "11 1", ".names c d", "1 1", ".names d e", ".end"]

/-- C9 witness: on a concrete netlist with three `.names` lines the
extractor returns 3. -/
theorem c9_netlist_extractor_witness :
    countLutsInBlif (some blifSample) = some 3 ∧
    (blifSample.filter fun l => List.isPrefixOf ".names".toList l.toList).length = 3 :=
  ⟨((c9_netlist_extractor blifSample).1 (by decide)).trans (by decide), by decide⟩

/-- A flow result that failed before producing anything. -/
def failedCirct : SynthesisResults := { error_message := some "circt-verilog failed: boom" }

/-- A second failed flow result. -/
def failedYosys : SynthesisResults := { error_message := some "Yosys failed: boom" }

/-- C3 counterexample: with both flows failed, fewer than two strategies
qualify for every metric; timing and area do carry the `Unable to compare`
marker, but the runtime winner key is simply never written — the analysis
does not report `Unable to compare` for runtime. -/
theorem c3_counterexample :
    (runtimePairs failedCirct failedYosys none).length = 0 ∧
    (compare_results failedCirct failedYosys none).runtime_winner = none ∧
    ¬ (compare_results failedCirct failedYosys none).runtime_winner
        = some "Unable to compare" := by
  decide

/-- C3 (amended): when fewer than two strategies qualify for a metric, for
depth and cell count the analysis reports the winner as `Unable to
compare` and emits no ranking; for runtime it emits no winner key at all
(and no ranking) — the runtime block has no else branch. -/
theorem c3_no_comparison (c y : SynthesisResults) (h : Option SynthesisResults) :
    ((timingPairs c y h).length < 2 →
      (compare_results c y h).timing_winner = some "Unable to compare" ∧
      (compare_results c y h).timing_levels_all = none ∧
      (compare_results c y h).timing_improvement = none) ∧
    ((lutPairs c y h).length < 2 →
      (compare_results c y h).area_winner = some "Unable to compare" ∧
      (compare_results c y h).lut_counts_all = none ∧
      (compare_results c y h).area_improvement = none) ∧
    ((runtimePairs c y h).length < 2 →
      (compare_results c y h).runtime_winner = none ∧
      (compare_results c y h).runtimes_all = none ∧
      (compare_results c y h).speedup = none) := by
  by_cases hf : (flowsOf c y h).length < 2
  · rw [compare_results_short c y h hf]
    exact ⟨fun _ => ⟨rfl, rfl, rfl⟩, fun _ => ⟨rfl, rfl, rfl⟩, fun _ => ⟨rfl, rfl, rfl⟩⟩
  · rw [compare_results_long c y h hf]
    refine ⟨fun ht => ?_, fun ha => ?_, fun hr => ?_⟩
    · rw [rankIntMetric_short _ ht]
      exact ⟨rfl, rfl, rfl⟩
    · rw [rankIntMetric_short _ ha]
      exact ⟨rfl, rfl, rfl⟩
    · rw [rankRuntime_short _ hr]
      exact ⟨rfl, rfl, rfl⟩

/-- C3 witness: the amended statement applied to the two failed flows. -/
theorem c3_no_comparison_witness :
    ((compare_results failedCirct failedYosys none).timing_winner
        = some "Unable to compare" ∧
      (compare_results failedCirct failedYosys none).timing_levels_all = none ∧
      (compare_results failedCirct failedYosys none).timing_improvement = none) ∧
    ((compare_results failedCirct failedYosys none).runtime_winner = none ∧
      (compare_results failedCirct failedYosys none).runtimes_all = none ∧
      (compare_results failedCirct failedYosys none).speedup = none) :=
  ⟨(c3_no_comparison failedCirct failedYosys none).1 (by decide),
   (c3_no_comparison failedCirct failedYosys none).2.2 (by decide)⟩

/-- A successful flow with 10 logic levels and no other metric. -/
def slowTiming : SynthesisResults := { timing_levels := some 10, success := true }

/-- A successful flow with 5 logic levels and no other metric. -/
def fastTiming : SynthesisResults := { timing_levels := some 5, success := true }

/-- C8 counterexample: the qualifying pairs are supplied in flow order
CIRCT (10) then Yosys+ABC (5), but the emitted mapping is in ascending
sorted order, not the supplied order. -/
theorem c8_counterexample :
    timingPairs slowTiming fastTiming none = [("CIRCT", 10), ("Yosys+ABC", 5)] ∧
    (compare_results slowTiming fastTiming none).timing_levels_all
      = some [("Yosys+ABC", 5), ("CIRCT", 10)] ∧
    ¬ (compare_results slowTiming fastTiming none).timing_levels_all
        = some (timingPairs slowTiming fastTiming none) := by
  decide

/-- C8 (amended): whenever a full strategy-to-value mapping is emitted, it
is the ascending stable sort of the qualifying pairs — the same order used
for ranking — not the order in which the strategies were supplied. -/
theorem c8_mapping_sorted (c y : SynthesisResults) (h : Option SynthesisResults) :
    (∀ s, (compare_results c y h).timing_levels_all = some s →
      s = sortByKey (fun p : String × Int => p.2) (timingPairs c y h)) ∧
    (∀ s, (compare_results c y h).lut_counts_all = some s →
      s = sortByKey (fun p : String × Int => p.2) (lutPairs c y h)) ∧
    (∀ s, (compare_results c y h).runtimes_all = some s →
      s = sortByKey (fun p : String × ℚ => p.2) (runtimePairs c y h)) := by
  by_cases hf : (flowsOf c y h).length < 2
  · rw [compare_results_short c y h hf]
    exact ⟨fun s hs => by simp at hs, fun s hs => by simp at hs, fun s hs => by simp at hs⟩
  · rw [compare_results_long c y h hf]
    exact ⟨fun s hs => rankIntMetric_ranking _ s hs,
           fun s hs => rankIntMetric_ranking _ s hs,
           fun s hs => rankRuntime_ranking _ s hs⟩

/-- C8 witness: the amended statement applied to the concrete pair of
flows; the emitted mapping equals the sorted list. -/
theorem c8_mapping_sorted_witness :
    [("Yosys+ABC", (5 : Int)), ("CIRCT", 10)]
      = sortByKey (fun p : String × Int => p.2) (timingPairs slowTiming fastTiming none) :=
  (c8_mapping_sorted slowTiming fastTiming none).1
    [("Yosys+ABC", 5), ("CIRCT", 10)] (by decide)

/-- C5: whenever a metric is ranked, its winner is the *first* qualifying
strategy attaining the minimal value, in the order the qualifying list is
built — the fixed priority order CIRCT (native), Yosys+ABC (external),
CIRCT+Yosys (hybrid) of `flowsOf`.  In particular, on a tie at the best
value the earlier strategy in that priority order wins: every strategy
listed before the winner has a strictly larger value.  The comparator is a
pure function, so this choice is deterministic across repeated calls. -/
theorem c5_tie_break (c y : SynthesisResults) (h : Option SynthesisResults) :
    (∀ w s, (compare_results c y h).timing_winner = some w →
      (compare_results c y h).timing_levels_all = some s →
      ∃ v l₁ l₂, timingPairs c y h = l₁ ++ (w, v) :: l₂ ∧
        (∀ p ∈ timingPairs c y h, v ≤ p.2) ∧ ∀ p ∈ l₁, v < p.2) ∧
    (∀ w s, (compare_results c y h).area_winner = some w →
      (compare_results c y h).lut_counts_all = some s →
      ∃ v l₁ l₂, lutPairs c y h = l₁ ++ (w, v) :: l₂ ∧
        (∀ p ∈ lutPairs c y h, v ≤ p.2) ∧ ∀ p ∈ l₁, v < p.2) ∧
    (∀ w s, (compare_results c y h).runtime_winner = some w →
      (compare_results c y h).runtimes_all = some s →
      ∃ v l₁ l₂, runtimePairs c y h = l₁ ++ (w, v) :: l₂ ∧
        (∀ p ∈ runtimePairs c y h, v ≤ p.2) ∧ ∀ p ∈ l₁, v < p.2) := by
  by_cases hf : (flowsOf c y h).length < 2
  · rw [compare_results_short c y h hf]
    exact ⟨fun w s _ hs => by simp at hs, fun w s _ hs => by simp at hs,
           fun w s _ hs => by simp at hs⟩
  · rw [compare_results_long c y h hf]
    refine ⟨fun w s hw hs => ?_, fun w s hw hs => ?_, fun w s hw hs => ?_⟩
    · cases hsort : sortByKey (fun p : String × Int => p.2) (timingPairs c y h) with
      | nil => simp [rankIntMetric, hsort] at hs
      | cons p0 tail =>
        cases tail with
        | nil => simp [rankIntMetric, hsort] at hs
        | cons p1 rest =>
          simp only [rankIntMetric, hsort, Option.some.injEq] at hw
          subst hw
          obtain ⟨l₁, l₂, hsplit, hmin, hpre⟩ :=
            sortByKey_firstMin (fun p : String × Int => p.2) (timingPairs c y h)
              p0 (p1 :: rest) hsort
          refine ⟨p0.2, l₁, l₂, ?_, hmin, hpre⟩
          rw [Prod.mk.eta]
          exact hsplit
    · cases hsort : sortByKey (fun p : String × Int => p.2) (lutPairs c y h) with
      | nil => simp [rankIntMetric, hsort] at hs
      | cons p0 tail =>
        cases tail with
        | nil => simp [rankIntMetric, hsort] at hs
        | cons p1 rest =>
          simp only [rankIntMetric, hsort, Option.some.injEq] at hw
          subst hw
          obtain ⟨l₁, l₂, hsplit, hmin, hpre⟩ :=
            sortByKey_firstMin (fun p : String × Int => p.2) (lutPairs c y h)
              p0 (p1 :: rest) hsort
          refine ⟨p0.2, l₁, l₂, ?_, hmin, hpre⟩
          rw [Prod.mk.eta]
          exact hsplit
    · cases hsort : sortByKey (fun p : String × ℚ => p.2) (runtimePairs c y h) with
      | nil => simp [rankRuntime, hsort] at hs
      | cons p0 tail =>
        cases tail with
        | nil => simp [rankRuntime, hsort] at hs
        | cons p1 rest =>
          simp only [rankRuntime, hsort, Option.some.injEq] at hw
          subst hw
          obtain ⟨l₁, l₂, hsplit, hmin, hpre⟩ :=
            sortByKey_firstMin (fun p : String × ℚ => p.2) (runtimePairs c y h)
              p0 (p1 :: rest) hsort
          refine ⟨p0.2, l₁, l₂, ?_, hmin, hpre⟩
          rw [Prod.mk.eta]
          exact hsplit

/-- A successful flow with 5 logic levels, to tie with `fastTiming`. -/
def tieCirct : SynthesisResults := { timing_levels := some 5, success := true }

/-- C5 witness: two strategies tie at 5 levels; the winner is CIRCT, the
first of the priority order, and every strategy ranked before it (none)
has a strictly larger value. -/
theorem c5_tie_break_witness :
    (compare_results tieCirct fastTiming none).timing_winner = some "CIRCT" ∧
    (∃ v l₁ l₂, timingPairs tieCirct fastTiming none = l₁ ++ ("CIRCT", v) :: l₂ ∧
      (∀ p ∈ timingPairs tieCirct fastTiming none, v ≤ p.2) ∧ ∀ p ∈ l₁, v < p.2) :=
  ⟨by decide,
   (c5_tie_break tieCirct fastTiming none).1 "CIRCT" [("CIRCT", 5), ("Yosys+ABC", 5)]
     (by decide) (by decide)⟩

/-- C10: ranking margins come from an ascending sort, so a reported timing
or area improvement is never negative, and when every qualifying runtime
is strictly positive the reported speedup is at least 1. -/
theorem c10_margins_nonneg (c y : SynthesisResults) (h : Option SynthesisResults) :
    (∀ v, (compare_results c y h).timing_improvement = some v → 0 ≤ v) ∧
    (∀ v, (compare_results c y h).area_improvement = some v → 0 ≤ v) ∧
    ((∀ p ∈ runtimePairs c y h, 0 < p.2) →
      ∀ s, (compare_results c y h).speedup = some s → 1 ≤ s) := by
  by_cases hf : (flowsOf c y h).length < 2
  · rw [compare_results_short c y h hf]
    exact ⟨fun v hv => by simp at hv, fun v hv => by simp at hv,
           fun _ s hs => by simp at hs⟩
  · rw [compare_results_long c y h hf]
    refine ⟨fun v hv => ?_, fun v hv => ?_, fun hpos s hs => ?_⟩
    · cases hsort : sortByKey (fun p : String × Int => p.2) (timingPairs c y h) with
      | nil => simp [rankIntMetric, hsort] at hv
      | cons p0 tail =>
        cases tail with
        | nil => simp [rankIntMetric, hsort] at hv
        | cons p1 rest =>
          simp only [rankIntMetric, hsort, Option.some.injEq] at hv
          obtain ⟨l₁, l₂, hsplit, hmin, hpre⟩ :=
            sortByKey_firstMin (fun p : String × Int => p.2) (timingPairs c y h)
              p0 (p1 :: rest) hsort
          have hp1 : p1 ∈ timingPairs c y h := by
            rw [← mem_sortByKey (fun p : String × Int => p.2) p1, hsort]
            exact List.mem_cons_of_mem _ (List.mem_cons_self _ _)
          rw [← hv]
          exact sub_nonneg.mpr (hmin p1 hp1)
    · cases hsort : sortByKey (fun p : String × Int => p.2) (lutPairs c y h) with
      | nil => simp [rankIntMetric, hsort] at hv
      | cons p0 tail =>
        cases tail with
        | nil => simp [rankIntMetric, hsort] at hv
        | cons p1 rest =>
          simp only [rankIntMetric, hsort, Option.some.injEq] at hv
          obtain ⟨l₁, l₂, hsplit, hmin, hpre⟩ :=
            sortByKey_firstMin (fun p : String × Int => p.2) (lutPairs c y h)
              p0 (p1 :: rest) hsort
          have hp1 : p1 ∈ lutPairs c y h := by
            rw [← mem_sortByKey (fun p : String × Int => p.2) p1, hsort]
            exact List.mem_cons_of_mem _ (List.mem_cons_self _ _)
          rw [← hv]
          exact sub_nonneg.mpr (hmin p1 hp1)
    · cases hsort : sortByKey (fun p : String × ℚ => p.2) (runtimePairs c y h) with
      | nil => simp [rankRuntime, hsort] at hs
      | cons p0 tail =>
        cases tail with
        | nil => simp [rankRuntime, hsort] at hs
        | cons p1 rest =>
          simp only [rankRuntime, hsort, Option.some.injEq] at hs
          obtain ⟨l₁, l₂, hsplit, hmin, hpre⟩ :=
            sortByKey_firstMin (fun p : String × ℚ => p.2) (runtimePairs c y h)
              p0 (p1 :: rest) hsort
          have hp0 : p0 ∈ runtimePairs c y h := by
            rw [← mem_sortByKey (fun p : String × ℚ => p.2) p0, hsort]
            exact List.mem_cons_self _ _
          have hp1 : p1 ∈ runtimePairs c y h := by
            rw [← mem_sortByKey (fun p : String × ℚ => p.2) p1, hsort]
            exact List.mem_cons_of_mem _ (List.mem_cons_self _ _)
          rw [← hs]
          exact (one_le_div (hpos p0 hp0)).mpr (hmin p1 hp1)

/-- A successful flow with metrics 3 levels, 8 LUTs, runtime 2 s. -/
def quickCirct : SynthesisResults :=
  { timing_levels := some 3, lut_count := some 8, runtime := some 2, success := true }

/-- A successful flow with metrics 7 levels, 6 LUTs, runtime 4 s. -/
def slowYosys : SynthesisResults :=
  { timing_levels := some 7, lut_count := some 6, runtime := some 4, success := true }

/-- C10 witness: on concrete flows the timing improvement is 4 ≥ 0, the
area improvement is 2 ≥ 0, and the speedup 4/2 is at least 1. -/
theorem c10_margins_nonneg_witness :
    (compare_results quickCirct slowYosys none).timing_improvement = some 4 ∧
    (0 : Int) ≤ 4 ∧
    (compare_results quickCirct slowYosys none).area_improvement = some 2 ∧
    (0 : Int) ≤ 2 ∧
    (compare_results quickCirct slowYosys none).speedup = some ((4 : ℚ) / 2) ∧
    (1 : ℚ) ≤ (4 : ℚ) / 2 :=
  ⟨by decide,
   (c10_margins_nonneg quickCirct slowYosys none).1 4 (by decide),
   by decide,
   (c10_margins_nonneg quickCirct slowYosys none).2.1 2 (by decide),
   by rfl,
   (c10_margins_nonneg quickCirct slowYosys none).2.2 (by decide) ((4 : ℚ) / 2) (by rfl)⟩

/-- A stage that exits with status 1. -/
def stageFail : StageOut := { returncode := 1, stdout := "", stderr := "syntax error" }

/-- A stage that exits with status 0. -/
def stageOk : StageOut := { returncode := 0, stdout := "", stderr := "" }

/-- Native-flow environment whose first stage fails. -/
def circtFailEnv : CirctEnv :=
  { verilogStage := stageFail, synthStage := stageOk, jsonExists := false,
    jsonLevels := none, jsonLuts := none, elapsed := 7 }

/-- C1 counterexample: the native flow's first stage exits with status 1,
and the returned record has `runtime` absent — the elapsed time is *not*
recorded on a stage failure, only on success or on a caught exception. -/
theorem c1_counterexample :
    circtFailEnv.verilogStage.returncode = 1 ∧
    (run_circt_synthesis circtFailEnv).success = false ∧
    (run_circt_synthesis circtFailEnv).runtime = none := by
  decide

/-- C1 (amended): in every flow runner, a stage exiting with non-zero
status triggers an early return *before* `runtime` is assigned, so the
returned record has `runtimeSeconds` absent (and `succeeded` false);
`runtime` is populated only on full success or in the exception handler
(shown here for the external flow's script/log faults). -/
theorem c1_runtime_absent_on_stage_failure :
    (∀ e : CirctEnv,
      ¬ e.verilogStage.returncode = 0 ∨ ¬ e.synthStage.returncode = 0 →
      (run_circt_synthesis e).runtime = none ∧ (run_circt_synthesis e).success = false) ∧
    (∀ e : YosysEnv, e.scriptExc = none → e.logWriteExc = none →
      ¬ e.yosysStage.returncode = 0 →
      (run_yosys_synthesis e).runtime = none ∧ (run_yosys_synthesis e).success = false) ∧
    (∀ e : YosysEnv, ¬ e.scriptExc = none ∨ ¬ e.logWriteExc = none →
      (run_yosys_synthesis e).runtime = some e.elapsedExc) ∧
    (∀ e : HybridEnv, e.scriptExc = none → e.logWriteExc = none →
      (¬ e.verilogStage.returncode = 0 ∨ ¬ e.synthStage.returncode = 0 ∨
       ¬ e.translateStage.returncode = 0 ∨ ¬ e.yosysStage.returncode = 0) →
      (run_hybrid_synthesis e).runtime = none ∧ (run_hybrid_synthesis e).success = false) := by
  refine ⟨fun e he => ?_, fun e h1 h2 h3 => ?_, fun e he => ?_, fun e h1 h2 he => ?_⟩
  · unfold run_circt_synthesis
    by_cases hv : ¬ e.verilogStage.returncode = 0
    · rw [if_pos hv]
      exact ⟨rfl, rfl⟩
    · rcases he with h | h
      · exact absurd h hv
      · rw [if_neg hv, if_pos h]
        exact ⟨rfl, rfl⟩
  · unfold run_yosys_synthesis
    simp only [h1, h2]
    rw [if_pos h3]
    exact ⟨rfl, rfl⟩
  · unfold run_yosys_synthesis
    rcases he with h | h
    · cases hsc : e.scriptExc with
      | none => exact absurd hsc h
      | some m => simp [hsc]
    · cases hsc : e.scriptExc with
      | some m => simp [hsc]
      | none =>
        cases hl : e.logWriteExc with
        | none => exact absurd hl h
        | some m => simp [hsc, hl]
  · unfold run_hybrid_synthesis
    by_cases hv : ¬ e.verilogStage.returncode = 0
    · rw [if_pos hv]
      exact ⟨rfl, rfl⟩
    · rw [if_neg hv]
      by_cases hsy : ¬ e.synthStage.returncode = 0
      · rw [if_pos hsy]
        exact ⟨rfl, rfl⟩
      · rw [if_neg hsy]
        by_cases htr : ¬ e.translateStage.returncode = 0
        · rw [if_pos htr]
          exact ⟨rfl, rfl⟩
        · rw [if_neg htr]
          simp only [h1, h2]
          have hy : ¬ e.yosysStage.returncode = 0 := by
            rcases he with h | h | h | h
            · exact absurd h hv
            · exact absurd h hsy
            · exact absurd h htr
            · exact h
          rw [if_pos hy]
          exact ⟨rfl, rfl⟩

/-- External-flow environment whose Yosys stage fails with status 2. -/
def yosysFailEnv : YosysEnv :=
  { scriptExc := none,
    yosysStage := { returncode := 2, stdout := "", stderr := "ERROR: syntax error" },
    logWriteExc := none, logMatches := some [], blifExists := false, blifLines := none,
    unlinkExc := none, elapsed := 1, elapsedExc := 1 }

/-- C1 witness: the amended statement applied to the external flow with a
failing Yosys stage — runtime is absent. -/
theorem c1_runtime_absent_witness :
    (run_yosys_synthesis yosysFailEnv).runtime = none ∧
    (run_yosys_synthesis yosysFailEnv).success = false :=
  c1_runtime_absent_on_stage_failure.2.1 yosysFailEnv rfl rfl (by decide)

/-- External-flow environment where every stage succeeds but the final
`os.unlink` of the temporary script raises. -/
def unlinkFailEnv : YosysEnv :=
  { scriptExc := none, yosysStage := { returncode := 0, stdout := "stats", stderr := "" },
    logWriteExc := none, logMatches := some [7], blifExists := true,
    blifLines := some [".names a b", "11 1", ".names b c"],
    unlinkExc := some "No such file or directory", elapsed := 2, elapsedExc := 3 }

/-- C4: evaluating the external flow at an environment where synthesis
fully succeeds but the cleanup `os.unlink` raises: `success` was already
set to true, then the exception handler fills `error_message` — the
returned record has `succeeded = true` with `failureReason` populated,
violating the invariant the claim states. -/
theorem c4_invariant_violated :
    (run_yosys_synthesis unlinkFailEnv).success = true ∧
    (run_yosys_synthesis unlinkFailEnv).error_message
      = some "Yosys synthesis error: No such file or directory" ∧
    (run_yosys_synthesis unlinkFailEnv).timing_levels = some 7 := by
  decide

/-- C6: the finalized batch summary always reports zero ties for both the
timing and the area tally, whatever the per-file outcomes: the tally code
looks for the winner value `Tie`, which `compare_results` never produces
(its winners are flow names or `Unable to compare`). -/
theorem c6_tie_tallies_zero (files : List (String × FileOutcome)) :
    (run_batch_comparison files).summary.ties_timing = 0 ∧
    (run_batch_comparison files).summary.ties_area = 0 := by
  constructor
  · show (files.foldl batchStep ([], {})).2.ties_timing = 0
    rw [foldl_batchStep_ties_timing]
  · show (files.foldl batchStep ([], {})).2.ties_area = 0
    rw [foldl_batchStep_ties_area]

/-- A fully successful flow triple used in the concrete batch. -/
def okCirct : SynthesisResults :=
  { timing_levels := some 4, lut_count := some 9, success := true }

/-- Second member of the successful triple. -/
def okYosys : SynthesisResults :=
  { timing_levels := some 6, lut_count := some 5, success := true }

/-- Third member of the successful triple. -/
def okHybrid : SynthesisResults :=
  { timing_levels := some 5, lut_count := some 7, success := true }

/-- A concrete batch of three files where only the second raises. -/
def threeFiles : List (String × FileOutcome) :=
  [("adder.v", FileOutcome.ok okCirct okYosys okHybrid),
   ("bad.v", FileOutcome.fault "circt-verilog crashed"),
   ("mux.v", FileOutcome.ok okCirct okYosys okHybrid)]

/-- C7: batch isolation.  In every batch, each file contributes exactly its
own entry — a fault is caught and recorded as that file's failure entry
without disturbing any other file — and `failed_comparisons` counts
exactly the files whose outcome failed.  On the concrete three-file batch
where only file 2 raises, files 1 and 3 still get comparison entries and
`failed_comparisons = 1`. -/
theorem c7_batch_isolation :
    (∀ files : List (String × FileOutcome),
      (run_batch_comparison files).results
        = (files.map fun f => (f.1, entryOfOutcome f.2)) ∧
      (run_batch_comparison files).summary.failed_comparisons
        = files.countP fun f => isFailedOutcome f.2) ∧
    ((run_batch_comparison threeFiles).results.map Prod.fst
        = ["adder.v", "bad.v", "mux.v"] ∧
     (run_batch_comparison threeFiles).results.map (fun p => isErrorEntry p.2)
        = [false, true, false] ∧
     (run_batch_comparison threeFiles).summary.failed_comparisons = 1) := by
  refine ⟨fun files => ⟨?_, ?_⟩, ?_, ?_, ?_⟩
  · show (files.foldl batchStep ([], {})).1 = _
    rw [foldl_batchStep_results]
    simp
  · show (files.foldl batchStep ([], {})).2.failed_comparisons = _
    rw [foldl_batchStep_failed]
    simp
  · decide
  · decide
  · decide

end SynthUtil
